import Mathlib

/-!
Verification of the WhatsApp sales parser in `dashboard.py`.

The parser's numeric values (amounts, quantities, prices) are Python floats
that always hold small decimal numbers; we model them as exact rationals `ℚ`,
and Python's `round` (round-half-to-even to an integer) as `pyRound`.
Strings are modelled as Lean `String` / `List Char`; Python's regular
expressions are modelled by explicit backtracking matchers that follow the
leftmost/greedy/lazy priority order of `re`.
-/

namespace Kokari

/- The Batteries rational-number operations are `@[irreducible]`, which stops
`decide` from evaluating concrete parses; restore default reducibility so the
executable embedding can be run inside proofs. -/
attribute [local semireducible] Rat.add Rat.mul Rat.inv Rat.sub Rat.ofScientific

/-- Python's built-in `round` to an integer: round half to even. -/
def pyRound (q : ℚ) : ℤ :=
  let f : ℤ := q.floor
  let frac : ℚ := q - (f : ℚ)
  if frac < 1/2 then f
  else if 1/2 < frac then f + 1
  else if f % 2 = 0 then f else f + 1

/-- Python whitespace characters recognised by `str.strip()` / `\s`. -/
def isSpacePy (c : Char) : Bool :=
  c = ' ' || c = '\t' || c = '\n' || c = '\r' || c = '\x0b' || c = '\x0c'

/-- Remove leading and trailing characters satisfying `p` (Python `str.strip`). -/
def stripList (p : Char → Bool) (l : List Char) : List Char :=
  ((l.dropWhile p).reverse.dropWhile p).reverse

/-- Python `str.strip()` on a string. -/
def stripStr (s : String) : String :=
  ⟨stripList isSpacePy s.data⟩

/-- Python `str.lower()` (ASCII case folding suffices for this source). -/
def lowerStr (s : String) : String :=
  ⟨s.data.map Char.toLower⟩

/-- `needle` is a prefix of `hay`. -/
def listStartsWith : List Char → List Char → Bool
  | [], _ => true
  | _ :: _, [] => false
  | a :: as, b :: bs => a == b && listStartsWith as bs

/-- Python's `needle in hay` substring test. -/
def listHasSub (needle : List Char) : List Char → Bool
  | [] => listStartsWith needle []
  | hay@(_ :: rest) => listStartsWith needle hay || listHasSub needle rest

/-- `a in b` on strings (Python substring containment). -/
def isSub (a b : String) : Bool := listHasSub a.data b.data

/-- Helper of `collapseWs`: `inRun` records whether the previous character
was whitespace (in which case further whitespace is dropped rather than
emitting another space). -/
def collapseWsAux : List Char → Bool → List Char
  | [], _ => []
  | c :: rest, inRun =>
    if isSpacePy c then
      if inRun then collapseWsAux rest true
      else ' ' :: collapseWsAux rest true
    else c :: collapseWsAux rest false

/-- `re.sub(r"\s+", " ", ·)`: collapse each whitespace run to a single space. -/
def collapseWs (l : List Char) : List Char := collapseWsAux l false

/-- Python `str.title()`: upper-case a letter that follows a non-letter,
lower-case a letter that follows a letter (`prevAlpha` tracks the latter). -/
def titleList : List Char → Bool → List Char
  | [], _ => []
  | c :: rest, prevAlpha =>
    if c.isAlpha then
      (if prevAlpha then c.toLower else c.toUpper) :: titleList rest true
    else c :: titleList rest false

/-- `s.title()` on a string. -/
def titleStr (s : String) : String := ⟨titleList s.data false⟩

/-- One row of the product catalog (`products_df`): id, name, channel name,
cost ratio, default price — the columns read by `parse_whatsapp_sales`. -/
structure Product where
  id : String
  name : String
  channel : String
  cost_ratio : ℚ
  default_price : ℚ
deriving Repr, DecidableEq

/-- `PRODUCT_ALIASES` from `dashboard.py`: keyword ↦ (product id, category),
in source (dict-insertion) order. -/
def PRODUCT_ALIASES : List (String × String × String) := [
  ("iced coffee",       "p09", "Cafe"),
  ("ice coffee",        "p09", "Cafe"),
  ("iced tea",          "p18", "Cafe"),
  ("ice tea",           "p18", "Cafe"),
  ("coffee",            "p08", "Cafe"),
  ("zobo",              "p10", "Cafe"),
  ("pancake",           "p01", "Cafe"),
  ("puff puff",         "p04", "Cafe"),
  ("puff-puff",         "p04", "Cafe"),
  ("smoothie",          "p02", "Cafe"),
  ("fruit smoothie",    "p02", "Cafe"),
  ("wrap",              "p05", "Cafe"),
  ("chicken wrap",      "p05", "Cafe"),
  ("spicy wrap",        "p05", "Cafe"),
  ("wings",             "p06", "Cafe"),
  ("chicken wings",     "p06", "Cafe"),
  ("tapioca",           "p07", "Cafe"),
  ("parfait + wings",   "p11", "Cafe"),
  ("parfait and wings", "p11", "Cafe"),
  ("parfait & wings",   "p11", "Cafe"),
  ("parfait wings",     "p11", "Cafe"),
  ("combo",             "p11", "Cafe"),
  ("parfait",           "p12", "Cafe"),
  ("granola",           "p13", "Packaged"),
  ("granola 500g",      "p13", "Packaged"),
  ("spicy coconut",     "p14", "Packaged"),
  ("coconut flakes",    "p14", "Packaged"),
  ("cashew",            "p15", "Packaged"),
  ("honey cashew",      "p15", "Packaged"),
  ("coconut cashew",    "p15", "Packaged"),
  ("ccb",               "p16", "Packaged"),
  ("water",             "p19", "Cafe"),
  ("space",             "p20", "Other"),
  ("space rental",      "p20", "Other"),
  ("take away",         "p01", "Cafe"),
  ("books",             "p03", "Retail"),
  ("book",              "p03", "Retail"),
  ("wholesale",         "p17", "B2B"),
  ("b2b",               "p17", "B2B"),
  ("bulk",              "p17", "B2B")]

/-- The product seed of `init_db` (ids p01–p20) with their channel names,
used as a representative concrete catalog. -/
def seedProducts : List Product := [
  ⟨"p01", "Pancakes",             "Cafe",     0.38, 4300⟩,
  ⟨"p02", "Fruit Smoothie",       "Cafe",     0.40, 4840⟩,
  ⟨"p03", "Books",                "Retail",   0.55, 10975⟩,
  ⟨"p04", "Puff Puff",            "Cafe",     0.30, 3765⟩,
  ⟨"p05", "Spicy Chicken Wrap",   "Cafe",     0.42, 4600⟩,
  ⟨"p06", "Chicken Wings",        "Cafe",     0.45, 8065⟩,
  ⟨"p07", "Tapioca",              "Cafe",     0.35, 4300⟩,
  ⟨"p08", "Coffee",               "Cafe",     0.28, 4300⟩,
  ⟨"p09", "Iced Coffee",          "Cafe",     0.30, 4840⟩,
  ⟨"p10", "Zobo",                 "Cafe",     0.25, 3765⟩,
  ⟨"p11", "Parfait & Wings Combo","Cafe",     0.45, 8600⟩,
  ⟨"p12", "Parfait",              "Cafe",     0.40, 5375⟩,
  ⟨"p13", "Granola 500g",         "Packaged", 0.50, 6757⟩,
  ⟨"p14", "Spicy Coconut Flakes", "Packaged", 0.48, 3765⟩,
  ⟨"p15", "Honey Coconut Cashew", "Packaged", 0.50, 10750⟩,
  ⟨"p16", "CCB",                  "Packaged", 0.50, 9675⟩,
  ⟨"p17", "Wholesale (B2B)",      "B2B",      0.55, 1000⟩,
  ⟨"p18", "Iced Tea",             "Cafe",     0.30, 4840⟩,
  ⟨"p19", "Water",                "Cafe",     0.20, 500⟩,
  ⟨"p20", "Space Rental",         "Other",    0.05, 3500⟩]

/-- Result of `best_match`: the fields of the item-stub dict it returns. -/
structure BMatch where
  product_id : Option String
  product_name : String
  channel : String
  category : String
  unit_price : ℚ
  cost_ratio : ℚ
  confidence : String
deriving Repr, DecidableEq

/-- One step of the alias scan in `best_match`: keep the new rule only when
its keyword occurs in the description and is strictly longer than the best
length seen so far (`len(alias) > matched_len`). -/
def aliasStep (itemLower : String) (acc : Option (String × String) × Nat)
    (kv : String × String × String) : Option (String × String) × Nat :=
  if isSub kv.1 itemLower && decide (acc.2 < kv.1.length) then
    (some (kv.2.1, kv.2.2), kv.1.length)
  else acc

/-- The alias-table scan of `best_match`: fold over the table keeping the
longest (first on ties) matching keyword's (product id, category). -/
def aliasScan (aliases : List (String × String × String)) (itemLower : String) :
    Option (String × String) × Nat :=
  aliases.foldl (aliasStep itemLower) (none, 0)

/-- The catalog-name fallback of `best_match`: first product whose lowered
name contains, or is contained in, the lowered description; otherwise the
unmatched low-confidence stub. -/
def nameFallback (ps : List Product) (item_text item_lower : String) : BMatch :=
  match ps.find? (fun p => isSub (lowerStr p.name) item_lower
      || isSub item_lower (lowerStr p.name)) with
  | some p => ⟨some p.id, p.name, p.channel, p.channel, p.default_price,
      p.cost_ratio, "medium"⟩
  | none => ⟨none, titleStr (stripStr item_text), "Cafe", "Cafe", 0, 0.40, "low"⟩

/-- `best_match` from `parse_whatsapp_sales`: longest alias match (resolved
through the catalog) wins with confidence "high"; otherwise partial catalog
name match ("medium"); otherwise the unmatched stub ("low"). -/
def best_match (ps : List Product) (item_text : String) : BMatch :=
  let item_lower := stripStr (lowerStr item_text)
  match (aliasScan PRODUCT_ALIASES item_lower).1 with
  | some (pid, cat) =>
    match ps.find? (fun p => p.id == pid) with
    | some p => ⟨some pid, p.name, p.channel, cat, p.default_price,
        p.cost_ratio, "high"⟩
    | none => nameFallback ps item_text item_lower
  | none => nameFallback ps item_text item_lower

/-- One parsed line item: the `best_match` fields plus `qty` and the totals
filled in by reconciliation (0 until then, since Python adds those dict keys
only during reconciliation). -/
structure Item where
  product_id : Option String
  product_name : String
  channel : String
  category : String
  unit_price : ℚ
  cost_ratio : ℚ
  confidence : String
  qty : ℚ
  total_price : ℚ
  unit_cogs : ℚ
  total_cogs : ℚ
deriving Repr, DecidableEq

/-- `re.split(r"[,+&]", ·)`: split at every comma, plus or ampersand. -/
def splitDelims : List Char → List (List Char)
  | [] => [[]]
  | c :: rest =>
    let r := splitDelims rest
    if c = ',' || c = '+' || c = '&' then [] :: r
    else (c :: r.headI) :: r.tail

/-- Value of the digit string `l` (e.g. "104" ↦ 104). -/
def natOfDigits (l : List Char) : ℕ :=
  l.foldl (fun n c => 10 * n + (c.toNat - 48)) 0

/-- Value of a matched quantity token `\d+(?:\.\d+)?` as an exact rational. -/
def ratOfNum (l : List Char) : ℚ :=
  let intPart := l.takeWhile Char.isDigit
  match l.drop intPart.length with
  | '.' :: fs => (natOfDigits intPart : ℚ) + (natOfDigits fs : ℚ) / (10 ^ fs.length)
  | _ => (natOfDigits intPart : ℚ)

/-- Candidate (token, rest) splits for the leading `\d+(?:\.\d+)?` of the
item regex, in the backtracking priority order of `re`: maximal digit run
with the fractional part (longest fraction first), then the digit run alone,
shrinking. A fractional part can only follow the full digit run. -/
def numberCandidates (l : List Char) : List (List Char × List Char) :=
  let ds := l.takeWhile Char.isDigit
  if ds.isEmpty then []
  else
    let fracs :=
      match l.drop ds.length with
      | '.' :: r1 =>
        let fs := r1.takeWhile Char.isDigit
        (List.range fs.length).map fun i =>
          let m := fs.length - i
          (ds ++ '.' :: fs.take m, r1.drop m)
      | _ => []
    let wholes :=
      (List.range ds.length).map fun i =>
        let k := ds.length - i
        (l.take k, l.drop k)
    fracs ++ wholes

/-- Candidate rests after `\s*` (greedy: drop the whole space run first,
then progressively fewer spaces). -/
def spaceSplits (l : List Char) : List (List Char) :=
  let n := (l.takeWhile isSpacePy).length
  (List.range (n + 1)).map fun i => l.drop (n - i)

/-- Candidate rests after the optional unit `(?:kg|g|pcs|pc|x)?`, in the
alternation order of the regex, ending with "no unit consumed". -/
def unitSplits (l : List Char) : List (List Char) :=
  (["kg", "g", "pcs", "pc", "x"].filterMap fun u =>
    if listStartsWith u.data l then some (l.drop u.data.length) else none) ++ [l]

/-- The final `(.+)$` of the item regex: one or more non-newline characters
reaching the end of the string (or a single trailing newline). -/
def descMatch (l : List Char) : Option (List Char) :=
  let d := l.takeWhile fun c => c ≠ '\n'
  if d.isEmpty then none
  else
    match l.drop d.length with
    | [] => some d
    | ['\n'] => some d
    | _ => none

/-- `re.match(r"^(\d+(?:\.\d+)?)\s*(?:kg|g|pcs|pc|x)?\s*(.+)$", part)`:
returns (quantity, description) on a match, exploring alternatives in the
regex engine's priority order. -/
def qtyDescMatch (part : List Char) : Option (ℚ × List Char) :=
  (numberCandidates part).findSome? fun nr =>
    (spaceSplits nr.2).findSome? fun r1 =>
      (unitSplits r1).findSome? fun r2 =>
        (spaceSplits r2).findSome? fun r3 =>
          (descMatch r3).map fun d => (ratOfNum nr.1, d)

/-- `parse_items` from `parse_whatsapp_sales`: lower-case the fragment,
split on `[,+&]`, strip each phrase, skip empty ones, read an optional
leading quantity (default 1), and resolve the description via `best_match`. -/
def parse_items (ps : List Product) (items_text : String) : List Item :=
  let low := (lowerStr items_text).data
  (splitDelims low).filterMap fun part0 =>
    let part := stripList isSpacePy part0
    if part.isEmpty then none
    else
      let qd : ℚ × List Char :=
        match qtyDescMatch part with
        | some (q, d) => (q, stripList isSpacePy d)
        | none => (1, part)
      let bm := best_match ps ⟨qd.2⟩
      some ⟨bm.product_id, bm.product_name, bm.channel, bm.category,
        bm.unit_price, bm.cost_ratio, bm.confidence, qd.1, 0, 0, 0⟩

/-- The "Unknown Item" stub synthesized for an order-candidate line with no
(or an empty) parenthesized item list (lines 583–595). -/
def unknownItem (amount : ℚ) : Item :=
  ⟨none, "Unknown Item", "Cafe", "Cafe", amount, 0.40, "low", 1, amount,
    (pyRound (amount * 0.40) : ℤ), (pyRound (amount * 0.40) : ℤ)⟩

/-- The reconciliation of lines 566–595: even split when no stub carries a
catalog price, proportional rescaling otherwise, then COGS derivation; the
empty item list becomes the single `unknownItem`. `none` models the
`ZeroDivisionError` Python raises when a division by a quantity of 0 occurs. -/
def finalizeItems (amount : ℚ) (items : List Item) : Option (List Item) :=
  if items.isEmpty then some [unknownItem amount]
  else
    let total_derived :=
      ((items.filter fun i => 0 < i.unit_price).map fun i =>
        i.qty * i.unit_price).sum
    let n : ℚ := items.length
    let priced : Option (List Item) :=
      if total_derived = 0 then
        let share := amount / n
        items.mapM fun i =>
          if i.qty = 0 then none
          else some { i with unit_price := (pyRound (share / i.qty) : ℤ),
                             total_price := (pyRound share : ℤ) }
      else
        let scale := amount / total_derived
        items.mapM fun i =>
          if 0 < i.unit_price then
            let up : ℚ := (pyRound (i.unit_price * scale) : ℤ)
            some { i with unit_price := up,
                          total_price := (pyRound (up * i.qty) : ℤ) }
          else if i.qty = 0 then none
          else
            let up : ℚ := (pyRound (amount / n / i.qty) : ℤ)
            some { i with unit_price := up,
                          total_price := (pyRound (up * i.qty) : ℤ) }
    priced.map fun l =>
      l.map fun i =>
        let uc : ℚ := (pyRound (i.unit_price * i.cost_ratio) : ℤ)
        { i with unit_cogs := uc, total_cogs := (pyRound (uc * i.qty) : ℤ) }

/-- `\w` for the word boundaries of `\btotal\b` / `\btransfer\b`. -/
def isWordChar (c : Char) : Bool := c.isAlphanum || c = '_'

/-- Scan for an occurrence of `w` delimited by word boundaries, carrying the
previous character (`none` at the start of the string). -/
def hasWordOcc (w : List Char) : List Char → Option Char → Bool
  | l, prev =>
    (listStartsWith w l
      && (match prev with | none => true | some p => !isWordChar p)
      && (match l.drop w.length with | [] => true | c :: _ => !isWordChar c))
    || (match l with
        | [] => false
        | c :: rest => hasWordOcc w rest (some c))

/-- The summary-line filter
`re.search(r"\btotal\b|\btransfer\b|opay|gtb|access|zenith|balance|summary",
line.lower())` (line 536): such lines are skipped. -/
def isSummaryLine (line : String) : Bool :=
  let low := (lowerStr line).data
  hasWordOcc "total".data low none || hasWordOcc "transfer".data low none
    || listHasSub "opay".data low || listHasSub "gtb".data low
    || listHasSub "access".data low || listHasSub "zenith".data low
    || listHasSub "balance".data low || listHasSub "summary".data low

/-- The marker class `[✅☑✓\*]` of `order_pattern`. -/
def markers : List Char := ['✅', '☑', '✓', '*']

/-- Character class of the lazy customer group `[^#\-\n]+?`. -/
def g1Char (c : Char) : Bool := !(c = '#' || c = '-' || c = '\n')

/-- Character class of the separator run `[-–—#\s]*`. -/
def sepChar (c : Char) : Bool :=
  c = '-' || c = '–' || c = '—' || c = '#' || isSpacePy c

/-- Character class of the amount group `[\d,]+`. -/
def amtChar (c : Char) : Bool := c.isDigit || c = ','

/-- Candidate (run, rest) splits of a character-class repetition, in
backtracking priority order: greedy runs shrink from the maximal run down to
`minLen`, lazy runs grow from `minLen` up to the maximal run. -/
def runSplits (cls : Char → Bool) (greedy : Bool) (minLen : ℕ) (l : List Char) :
    List (List Char × List Char) :=
  let n := (l.takeWhile cls).length
  if n < minLen then []
  else
    (List.range (n - minLen + 1)).map fun i =>
      let k := if greedy then n - i else minLen + i
      (l.take k, l.drop k)

/-- Candidate rests after `#?` (greedy: consume a "#" first if present). -/
def hashSplits : List Char → List (List Char)
  | '#' :: rest => [rest, '#' :: rest]
  | l => [l]

/-- The trailing optional items group `(?:\s*\(([^)]+)\))?` of
`order_pattern`: maximal space run, a literal "(", a nonempty run of
non-")" characters, then ")". Nothing after the group constrains it, so no
backtracking into it is needed. -/
def matchItemsGroup (l : List Char) : Option (List Char) :=
  match l.dropWhile isSpacePy with
  | '(' :: rest =>
    let body := rest.takeWhile fun c => c ≠ ')'
    if body.isEmpty then none
    else
      match rest.drop body.length with
      | ')' :: _ => some body
      | _ => none
  | _ => none

/-- Match the part of `order_pattern` after the marker:
`\S*\s*([^#\-\n]+?)[-–—#\s]*#?([\d,]+)(?:\s*\(([^)]+)\))?`, returning the
groups (customer, amount, items?). Alternatives are explored in the regex
engine's priority order (chronological backtracking). -/
def matchAfterMarker (l : List Char) :
    Option (List Char × List Char × Option (List Char)) :=
  (runSplits (fun c => !isSpacePy c) true 0 l).findSome? fun s1 =>
    (runSplits isSpacePy true 0 s1.2).findSome? fun s2 =>
      (runSplits g1Char false 1 s2.2).findSome? fun g1s =>
        (runSplits sepChar true 0 g1s.2).findSome? fun s4 =>
          (hashSplits s4.2).findSome? fun r5 =>
            (runSplits amtChar true 1 r5).findSome? fun g2s =>
              some (g1s.1, g2s.1, matchItemsGroup g2s.2)

/-- `order_pattern.search(line)` (lines 525–530, 539): try each position
left to right; a match must start with a marker character. -/
def searchOrderPattern : List Char → Option (List Char × List Char × Option (List Char))
  | [] => none
  | c :: rest =>
    if markers.contains c then
      match matchAfterMarker rest with
      | some r => some r
      | none => searchOrderPattern rest
    else searchOrderPattern rest

/-- Customer-name normalization (lines 543–546): strip whitespace, strip
"-"/"—", strip again, collapse inner whitespace, and map ""/"walk-in"/
"walk in" (case-insensitively) to the canonical "Walk-in". -/
def normalizeCustomer (g1 : List Char) : String :=
  let c1 := stripList isSpacePy g1
  let c2 := stripList isSpacePy (stripList (fun c => c = '-' || c = '—') c1)
  let s : String := ⟨collapseWs c2⟩
  if s.isEmpty || lowerStr s = "walk-in" || lowerStr s = "walk in" then "Walk-in"
  else s

/-- `float(m.group(2).replace(",", ""))` (line 549): drop the commas and
read the digits; `none` models the caught exception that skips the line. -/
def parseAmount (g2 : List Char) : Option ℚ :=
  let ds := g2.filter fun c => c ≠ ','
  if ds.isEmpty then none
  else if ds.all Char.isDigit then some (natOfDigits ds : ℚ)
  else none

/-- Payment-method hint (lines 556–562). -/
def paymentHint (lineLower : List Char) : String :=
  if listHasSub "cash".data lineLower then "Cash"
  else if listHasSub "pos".data lineLower then "POS"
  else if listHasSub "opay".data lineLower then "Opay"
  else "Bank Transfer"

/-- Order-type hint (line 564). -/
def orderTypeHint (lineLower : List Char) : String :=
  if ["take out", "takeout", "take-out", "to go"].any
      (fun w => listHasSub w.data lineLower) then "Take-out"
  else "Dine-in"

/-- One draft order as appended at lines 597–606. -/
structure Order where
  date : String
  customer_name : String
  order_type : String
  payment_method : String
  status : String
  total_amount : ℚ
  note : String
  items : List Item
deriving Repr, DecidableEq

/-- The per-line body of the loop at lines 532–606. `some none` is a
skipped line (`continue`), `some (some o)` a parsed order, and `none` an
uncaught `ZeroDivisionError` from reconciliation. -/
def processLine (ps : List Product) (sale_date : String) (line0 : String) :
    Option (Option Order) :=
  let line := stripStr line0
  if line.isEmpty then some none
  else if isSummaryLine line then some none
  else
    match searchOrderPattern line.data with
    | none => some none
    | some (g1, g2, g3) =>
      let customer := normalizeCustomer g1
      match parseAmount g2 with
      | none => some none
      | some amount =>
        let items0 : List Item :=
          match g3 with
          | some its => if its.isEmpty then [] else parse_items ps ⟨its⟩
          | none => []
        let low := (lowerStr line).data
        match finalizeItems amount items0 with
        | none => none
        | some items =>
          some (some ⟨sale_date, customer, orderTypeHint low, paymentHint low,
            "Confirmed", amount, "", items⟩)

/-- `text.strip().split("\n")`. -/
def splitNl : List Char → List (List Char)
  | [] => [[]]
  | c :: rest =>
    let r := splitNl rest
    if c = '\n' then [] :: r else (c :: r.headI) :: r.tail

/-- `parse_whatsapp_sales(text, sale_date, products_df)`: process every line
of the stripped text, collecting the parsed orders; `none` models an
uncaught exception. -/
def parse_whatsapp_sales (text : String) (sale_date : String)
    (ps : List Product) : Option (List Order) :=
  let lines := splitNl (stripStr text).data
  (lines.mapM fun ln => processLine ps sale_date ⟨ln⟩).map fun l => l.reduceOption

/-- `sum(i["total_price"] for i in order["items"])` (line 1344). -/
def derivedTotal (o : Order) : ℚ := (o.items.map fun i => i.total_price).sum

/-- The balance check of the review screen (lines 1344–1349): balanced when
`|total_amount − Σ total_price| ≤ 1`, otherwise flagged unbalanced. -/
def balancedFlag (o : Order) : Bool := |o.total_amount - derivedTotal o| ≤ 1

/-- A review edit of one item field (qty / unit price widgets,
lines 1331–1334). -/
inductive EditField where
  | qty (v : ℚ)
  | unitPrice (v : ℚ)
deriving Repr, DecidableEq

/-- Write the edited field into the stub. -/
def applyField (i : Item) : EditField → Item
  | .qty v => { i with qty := v }
  | .unitPrice v => { i with unit_price := v }

/-- The derived-total recomputation of lines 1335–1337, a function of the
stub's own qty, unit price and cost ratio only. -/
def recompute (i : Item) : Item :=
  let uc : ℚ := (pyRound (i.unit_price * i.cost_ratio) : ℤ)
  { i with total_price := (pyRound (i.qty * i.unit_price) : ℤ),
           unit_cogs := uc,
           total_cogs := (pyRound (uc * i.qty) : ℤ) }

/-- One render of a draft on the review screen with no edits: the qty and
unit-price widgets (lines 1331–1334) return each stub's stored values, and
line 1335–1337 then recompute every stub's `total_price`/`unit_cogs`/
`total_cogs` in place, before the balance check runs. The product-override
re-seed at lines 1320–1327 never writes `total_price`, so it cannot affect
the balance check and is not modelled. -/
def reviewRender (o : Order) : Order := { o with items := o.items.map recompute }

/-- The review pass over one parse batch (lines 1291–1349): every draft is
rendered — its per-item derived totals recomputed, with no re-reconciliation
against the reported total — and annotated with the balance flag computed on
the recomputed items; no draft is removed. -/
def reviewFlags (orders : List Order) : List (Order × Bool) :=
  orders.map fun o => (reviewRender o, balancedFlag (reviewRender o))

/-- Replace the item at index `n` by `f` of it, leaving the rest alone. -/
def updateAt (n : ℕ) (f : Item → Item) : List Item → List Item
  | [] => []
  | i :: rest =>
    match n with
    | 0 => f i :: rest
    | m + 1 => i :: updateAt m f rest

/-- The `edit_item` operation of the review session: set the edited field of
the addressed stub and recompute that stub's derived totals (the loop body
of lines 1331–1337 for the edited item); no other stub and no reconciliation
against the reported total is touched. -/
def edit_item (o : Order) (ii : ℕ) (f : EditField) : Order :=
  { o with items := updateAt ii (fun i => recompute (applyField i f)) o.items }

/-! ### Helper lemmas -/

theorem aliasStep_keep (low : String) (acc : Option (String × String) × ℕ)
    (e : String × String × String)
    (h : isSub e.1 low = true → e.1.length ≤ acc.2) :
    aliasStep low acc e = acc := by
  unfold aliasStep
  by_cases hm : isSub e.1 low = true
  · have := h hm
    have : decide (acc.2 < e.1.length) = false := by
      simp only [decide_eq_false_iff_not, not_lt]
      exact this
    simp [hm, this]
  · simp [Bool.eq_false_iff.mpr hm]

theorem aliasStep_take (low : String) (acc : Option (String × String) × ℕ)
    (e : String × String × String)
    (hm : isSub e.1 low = true) (hlt : acc.2 < e.1.length) :
    aliasStep low acc e = (some (e.2.1, e.2.2), e.1.length) := by
  unfold aliasStep
  simp [hm, hlt]

theorem aliasScan_keep (low : String) (l : List (String × String × String))
    (v : String × String) (L : ℕ)
    (h : ∀ e ∈ l, isSub e.1 low = true → e.1.length ≤ L) :
    l.foldl (aliasStep low) (some v, L) = (some v, L) := by
  induction l with
  | nil => rfl
  | cons e rest ih =>
    rw [List.foldl_cons, aliasStep_keep low _ e (h e (by simp))]
    exact ih fun e' h' hm => h e' (by simp [h']) hm

theorem aliasScan_bound (low : String) (l : List (String × String × String))
    (L : ℕ) (acc : Option (String × String) × ℕ) (hacc : acc.2 < L)
    (h : ∀ e ∈ l, isSub e.1 low = true → e.1.length < L) :
    (l.foldl (aliasStep low) acc).2 < L := by
  induction l generalizing acc with
  | nil => exact hacc
  | cons e rest ih =>
    rw [List.foldl_cons]
    apply ih
    · unfold aliasStep
      split
      · next hc =>
        have hm : isSub e.1 low = true := (Bool.and_eq_true _ _ |>.mp hc).1
        exact h e (by simp) hm
      · exact hacc
    · exact fun e' h' hm => h e' (by simp [h']) hm

theorem aliasScan_sel (low : String) (l1 l2 : List (String × String × String))
    (e : String × String × String)
    (hm : isSub e.1 low = true) (hpos : 0 < e.1.length)
    (hbefore : ∀ e' ∈ l1, isSub e'.1 low = true → e'.1.length < e.1.length)
    (hafter : ∀ e' ∈ l2, isSub e'.1 low = true → e'.1.length ≤ e.1.length) :
    aliasScan (l1 ++ e :: l2) low = (some (e.2.1, e.2.2), e.1.length) := by
  unfold aliasScan
  rw [List.foldl_append, List.foldl_cons]
  have hb := aliasScan_bound low l1 e.1.length (none, 0) hpos hbefore
  rw [aliasStep_take low _ e hm hb]
  exact aliasScan_keep low l2 _ _ hafter

theorem aliasScan_nomatch (low : String) (l : List (String × String × String))
    (acc : Option (String × String) × ℕ)
    (h : ∀ e ∈ l, isSub e.1 low = false) :
    l.foldl (aliasStep low) acc = acc := by
  induction l generalizing acc with
  | nil => rfl
  | cons e rest ih =>
    rw [List.foldl_cons, aliasStep_keep low acc e]
    · exact ih acc fun e' h' => h e' (by simp [h'])
    · intro hm
      rw [h e (by simp)] at hm
      exact absurd hm (by simp)

theorem mapM_eq_map (f : Item → Option Item) (g : Item → Item) (l : List Item)
    (h : ∀ i ∈ l, f i = some (g i)) : l.mapM f = some (l.map g) := by
  induction l with
  | nil => rfl
  | cons i rest ih =>
    rw [List.mapM_cons, h i (by simp), ih fun j hj => h j (by simp [hj])]
    rfl

theorem updateAt_idem (n : ℕ) (g : Item → Item) (hg : ∀ i, g (g i) = g i)
    (l : List Item) : updateAt n g (updateAt n g l) = updateAt n g l := by
  induction l generalizing n with
  | nil => simp [updateAt]
  | cons i rest ih =>
    cases n with
    | zero => simp [updateAt, hg]
    | succ m => simp [updateAt, ih]

theorem updateAt_get?_ne (n jj : ℕ) (g : Item → Item) (l : List Item)
    (h : jj ≠ n) : (updateAt n g l).get? jj = l.get? jj := by
  induction l generalizing n jj with
  | nil => simp [updateAt]
  | cons i rest ih =>
    cases n with
    | zero =>
      cases jj with
      | zero => exact absurd rfl h
      | succ j => rfl
    | succ m =>
      cases jj with
      | zero => rfl
      | succ j => exact ih m j fun hc => h (by rw [hc])

/-! ### Claim theorems -/

/-- C2: when several alias keywords occur in the lower-cased description, the
resolver keeps the mapping of the keyword of greatest length, and on equal
lengths the keyword declared first in table iteration order is retained
(general selection property of the alias scan over `PRODUCT_ALIASES`);
in particular "iced coffee" against aliases coffee↦p08 / iced coffee↦p09
resolves to p09 with confidence "high". -/
theorem C2_alias_longest_match :
    (∀ (low : String) (l1 l2 : List (String × String × String))
        (e : String × String × String),
      PRODUCT_ALIASES = l1 ++ e :: l2 →
      isSub e.1 low = true → 0 < e.1.length →
      (∀ e' ∈ l1, isSub e'.1 low = true → e'.1.length < e.1.length) →
      (∀ e' ∈ l2, isSub e'.1 low = true → e'.1.length ≤ e.1.length) →
      aliasScan PRODUCT_ALIASES low = (some (e.2.1, e.2.2), e.1.length)) ∧
    best_match seedProducts "iced coffee"
      = ⟨some "p09", "Iced Coffee", "Cafe", "Cafe", 4840, 0.30, "high"⟩ := by
  constructor
  · intro low l1 l2 e hsplit hm hpos hb ha
    rw [hsplit]
    exact aliasScan_sel low l1 l2 e hm hpos hb ha
  · decide

/-- Witness for C2: the "iced coffee" instance of the general selection
property, with every side condition checked on the concrete table. -/
theorem C2_alias_longest_match_witness :
    aliasScan PRODUCT_ALIASES "iced coffee" = (some ("p09", "Cafe"), 11) :=
  C2_alias_longest_match.1 "iced coffee" [] PRODUCT_ALIASES.tail
    ("iced coffee", "p09", "Cafe") rfl (by decide) (by decide)
    (by decide) (by decide)

/-- C7: a description that matches no alias keyword and no catalog name (in
either substring direction) yields the unmatched stub: no product id,
title-cased description, unit price 0, default category "Cafe" and cost
ratio 0.40, confidence "low" — and `best_match` is total, it never fails. -/
theorem C7_unmatched_fallback (ps : List Product) (desc : String)
    (halias : ∀ e ∈ PRODUCT_ALIASES, isSub e.1 (stripStr (lowerStr desc)) = false)
    (hname : ∀ p ∈ ps, isSub (lowerStr p.name) (stripStr (lowerStr desc)) = false
        ∧ isSub (stripStr (lowerStr desc)) (lowerStr p.name) = false) :
    best_match ps desc
      = ⟨none, titleStr (stripStr desc), "Cafe", "Cafe", 0, 0.40, "low"⟩ := by
  have hscan : aliasScan PRODUCT_ALIASES (stripStr (lowerStr desc)) = (none, 0) :=
    aliasScan_nomatch _ _ _ halias
  have hfind : ps.find? (fun p => isSub (lowerStr p.name) (stripStr (lowerStr desc))
      || isSub (stripStr (lowerStr desc)) (lowerStr p.name)) = none := by
    rw [List.find?_eq_none]
    intro p hp
    simp [(hname p hp).1, (hname p hp).2]
  unfold best_match
  simp only [hscan]
  show nameFallback ps desc (stripStr (lowerStr desc)) = _
  unfold nameFallback
  rw [hfind]

/-- Witness for C7: the description "zzz" against the empty catalog. -/
theorem C7_unmatched_fallback_witness :
    best_match [] "zzz"
      = ⟨none, titleStr (stripStr "zzz"), "Cafe", "Cafe", 0, 0.40, "low"⟩ :=
  C7_unmatched_fallback [] "zzz" (by decide) (by decide)

/-- C8: customer-name normalization maps "", "Walk-in", "walk in" and
"WALK-IN" to exactly "Walk-in", and trims separators/whitespace and
collapses internal whitespace (shown on "—John   Doe—"). -/
theorem C8_customer_normalization :
    normalizeCustomer "".data = "Walk-in" ∧
    normalizeCustomer "Walk-in".data = "Walk-in" ∧
    normalizeCustomer "walk in".data = "Walk-in" ∧
    normalizeCustomer "WALK-IN".data = "Walk-in" ∧
    normalizeCustomer "—John   Doe—".data = "John Doe" := by
  decide

/-- C5 (code bug): the summary filter at line 536 skips every line that
contains "opay" anywhere, so the `pay = "Opay"` branch at lines 561–562 is
unreachable; a line with "opay" never becomes an order candidate. -/
theorem C5_opay_lines_skipped :
    (∀ (ps : List Product) (date line : String),
      listHasSub "opay".data (lowerStr (stripStr line)).data = true →
      processLine ps date line = some none) ∧
    parse_whatsapp_sales "✅ John #500 opay" "2026-02-14" [] = some [] := by
  constructor
  · intro ps date line hsub
    unfold processLine
    by_cases h1 : (stripStr line).isEmpty
    · simp [h1]
    · have h2 : isSummaryLine (stripStr line) = true := by
        unfold isSummaryLine
        simp [hsub]
      simp [h1, h2]
  · decide

/-- Witness for C5: the line "✅ John #500 opay" is skipped outright. -/
theorem C5_opay_lines_skipped_witness :
    processLine [] "2026-02-14" "✅ John #500 opay" = some none :=
  C5_opay_lines_skipped.1 [] "2026-02-14" "✅ John #500 opay" (by decide)

/-- C10 (code bug): an item phrase whose leading quantity parses as 0, such
as "(0 zzz)", makes the reconciliation division `per_item_share / qty`
raise `ZeroDivisionError` (modelled: the parse returns `none` instead of a
list of orders). -/
theorem C10_zero_qty_crash :
    parse_whatsapp_sales "✅ John #100 (0 zzz)" "2026-02-14" [] = none := by
  decide

/-- Counterexample to C1: a draft with 7 equally-split unpriced items and
reported total 100 gets line totals 7 × 14 = 98, differing from the reported
total by 2 > 1, so the claimed 1-unit sum law fails; moreover the review
screen flags the totals it recomputes at line 1335, not the parser's stored
ones — "✅ John #100 (7 zzz)" is stored balanced (single line total 100) yet
after the render recompute (round(7·14) = 98) it is flagged unbalanced. Both
drafts are produced and annotated, not rejected. -/
theorem C1_sum_law_cex :
    (parse_whatsapp_sales "✅ John #100 (a,b,c,d,e,f,g)" "2026-02-14" []).map
        (fun l => l.map fun o =>
          (o.items.length, derivedTotal o, derivedTotal (reviewRender o),
            o.total_amount, balancedFlag (reviewRender o)))
      = some [(7, 98, 98, 100, false)] ∧
    (parse_whatsapp_sales "✅ John #100 (7 zzz)" "2026-02-14" []).map
        (fun l => l.map fun o =>
          (o.items.length, derivedTotal o, derivedTotal (reviewRender o),
            o.total_amount, balancedFlag (reviewRender o)))
      = some [(1, 100, 98, 100, false)] := by
  exact ⟨by decide, by decide⟩

/-- Counterexample to C4: the code has no slash grammar. The slash-formatted
line "✅ Janet / 08012345678 / #5,000 / (2 zzz)" is matched by the single
`order_pattern` instead: the phone digits are captured as the amount
(8012345678, not 5000), the slash stays inside the customer name, and the
item list is not extracted. -/
theorem C4_slash_grammar_cex :
    parse_whatsapp_sales "✅ Janet / 08012345678 / #5,000 / (2 zzz)" "2026-02-14" []
      = some [⟨"2026-02-14", "Janet /", "Dine-in", "Bank Transfer", "Confirmed",
          8012345678, "",
          [⟨none, "Unknown Item", "Cafe", "Cafe", 8012345678, 0.40, "low", 1,
            8012345678, 3204938271, 3204938271⟩]⟩] := by
  decide

/-- C1 (amended): the review pass keeps every parsed draft — none is
rejected — first recomputing each stub's derived totals from its own
quantity and unit price (line 1335; no re-reconciliation against the
reported total, which is unchanged), and then flags a draft unbalanced
exactly when the recomputed line totals differ from the reported total by
more than 1 unit; the stored sum itself may miss the reported total by more
than 1 unit (see the counterexample). -/
theorem C1_review_annotates (text d : String) (ps : List Product)
    (orders : List Order) (_h : parse_whatsapp_sales text d ps = some orders) :
    (reviewFlags orders).map Prod.fst = orders.map reviewRender ∧
    (∀ o ∈ orders, (reviewRender o).total_amount = o.total_amount) ∧
    ∀ p ∈ reviewFlags orders,
      (p.2 = false ↔ 1 < |p.1.total_amount - derivedTotal p.1|) := by
  refine ⟨?_, ?_, ?_⟩
  · have hmap : ∀ l : List Order,
        (reviewFlags l).map Prod.fst = l.map reviewRender := by
      intro l
      induction l with
      | nil => rfl
      | cons o rest ih => simp [reviewFlags, ih]
    exact hmap orders
  · intro o _
    rfl
  · intro p hp
    simp only [reviewFlags, List.mem_map] at hp
    obtain ⟨o, _, rfl⟩ := hp
    simp [balancedFlag, not_le]

/-- Witness for C1 (amended): the batch parsed from "✅ John #100 (7 zzz)" —
one draft whose stored line total is 100 but whose rendered totals sum to
98, so the review pass keeps it and flags it unbalanced. -/
theorem C1_review_annotates_witness :
    (reviewFlags [⟨"2026-02-14", "John", "Dine-in", "Bank Transfer",
        "Confirmed", 100, "",
        [⟨none, "Zzz", "Cafe", "Cafe", 14, 0.40, "low", 7, 100, 6, 42⟩]⟩]).map
        Prod.fst
      = ([⟨"2026-02-14", "John", "Dine-in", "Bank Transfer", "Confirmed", 100,
          "", [⟨none, "Zzz", "Cafe", "Cafe", 14, 0.40, "low", 7, 100, 6, 42⟩]⟩]
          : List Order).map reviewRender ∧
    (∀ o ∈ ([⟨"2026-02-14", "John", "Dine-in", "Bank Transfer", "Confirmed",
        100, "",
        [⟨none, "Zzz", "Cafe", "Cafe", 14, 0.40, "low", 7, 100, 6, 42⟩]⟩]
          : List Order), (reviewRender o).total_amount = o.total_amount) ∧
    ∀ p ∈ reviewFlags [⟨"2026-02-14", "John", "Dine-in", "Bank Transfer",
        "Confirmed", 100, "",
        [⟨none, "Zzz", "Cafe", "Cafe", 14, 0.40, "low", 7, 100, 6, 42⟩]⟩],
      (p.2 = false ↔ 1 < |p.1.total_amount - derivedTotal p.1|) :=
  C1_review_annotates "✅ John #100 (7 zzz)" "2026-02-14" []
    [⟨"2026-02-14", "John", "Dine-in", "Bank Transfer", "Confirmed", 100, "",
      [⟨none, "Zzz", "Cafe", "Cafe", 14, 0.40, "low", 7, 100, 6, 42⟩]⟩]
    (by decide)

/-- C4 (amended): every recognized order candidate comes from the single
`order_pattern` grammar — its customer name is the normalization of the
pattern's first group and its reported total is the parsed second group;
there is no separate slash grammar. -/
theorem C4_single_grammar (ps : List Product) (date line : String) (o : Order)
    (h : processLine ps date line = some (some o)) :
    ∃ g1 g2 g3, searchOrderPattern (stripStr line).data = some (g1, g2, g3) ∧
      o.customer_name = normalizeCustomer g1 ∧
      parseAmount g2 = some o.total_amount := by
  simp only [processLine] at h
  split at h
  · exact absurd h (by simp)
  split at h
  · exact absurd h (by simp)
  split at h
  · exact absurd h (by simp)
  next g1 g2 g3 hs =>
    split at h
    · exact absurd h (by simp)
    next amount ha =>
      split at h
      · exact absurd h (by simp)
      next items hf =>
        refine ⟨g1, g2, g3, hs, ?_, ?_⟩
        · simp only [Option.some.injEq] at h
          rw [← h]
        · simp only [Option.some.injEq] at h
          rw [← h]
          exact ha

/-- Witness for C4 (amended): the dash/hash-form line
"✅ Janet Johnson---#9,680(2 zzz)" is recognized through the single grammar. -/
theorem C4_single_grammar_witness :
    ∃ g1 g2 g3, searchOrderPattern
        (stripStr "✅ Janet Johnson---#9,680(2 zzz)").data = some (g1, g2, g3) ∧
      "Janet Johnson" = normalizeCustomer g1 ∧
      parseAmount g2 = some 9680 :=
  C4_single_grammar [] "2026-02-14" "✅ Janet Johnson---#9,680(2 zzz)"
    ⟨"2026-02-14", "Janet Johnson", "Dine-in", "Bank Transfer", "Confirmed", 9680,
      "", [⟨none, "Zzz", "Cafe", "Cafe", 4840, 0.40, "low", 2, 9680, 1936, 3872⟩]⟩
    (by decide)

/-- C3: when every stub carries catalog unit price 0 (and no quantity is 0,
which would raise), reconciliation sets every line total to
`round(reported_total / n)` and every unit price to
`round((reported_total / n) / qty)`; in particular all line totals are within
1 unit of each other (they are equal). -/
theorem C3_even_split (amount : ℚ) (items : List Item)
    (hne : items ≠ [])
    (hzero : ∀ i ∈ items, i.unit_price = 0)
    (hqty : ∀ i ∈ items, i.qty ≠ 0) :
    ∃ out, finalizeItems amount items = some out ∧
      out.length = items.length ∧
      (∀ j (hj : j < out.length),
        (out.get ⟨j, hj⟩).total_price = (pyRound (amount / items.length) : ℤ)) ∧
      (∀ j (hj : j < out.length) (hj2 : j < items.length),
        (out.get ⟨j, hj⟩).unit_price
          = (pyRound (amount / items.length / (items.get ⟨j, hj2⟩).qty) : ℤ)) ∧
      ∀ a ∈ out, ∀ b ∈ out, |a.total_price - b.total_price| ≤ 1 := by
  have hne2 : items.isEmpty = false := by
    cases items with
    | nil => exact absurd rfl hne
    | cons _ _ => rfl
  have hfilter : items.filter (fun i => decide (0 < i.unit_price)) = [] := by
    rw [List.filter_eq_nil_iff]
    intro i hi
    simp [hzero i hi]
  have hmapM : items.mapM (fun i =>
        if i.qty = 0 then none
        else some { i with
          unit_price := ((pyRound (amount / (items.length : ℚ) / i.qty) : ℤ) : ℚ),
          total_price := ((pyRound (amount / (items.length : ℚ)) : ℤ) : ℚ) })
      = some (items.map fun i => { i with
          unit_price := ((pyRound (amount / (items.length : ℚ) / i.qty) : ℤ) : ℚ),
          total_price := ((pyRound (amount / (items.length : ℚ)) : ℤ) : ℚ) }) :=
    mapM_eq_map _ _ items fun i hi => by simp [hqty i hi]
  have hfin : finalizeItems amount items
      = some ((items.map fun i => { i with
          unit_price := ((pyRound (amount / (items.length : ℚ) / i.qty) : ℤ) : ℚ),
          total_price := ((pyRound (amount / (items.length : ℚ)) : ℤ) : ℚ) }).map
        fun i => { i with
          unit_cogs := ((pyRound (i.unit_price * i.cost_ratio) : ℤ) : ℚ),
          total_cogs := ((pyRound (((pyRound (i.unit_price * i.cost_ratio) : ℤ) : ℚ)
            * i.qty) : ℤ) : ℚ) }) := by
    unfold finalizeItems
    simp only [hne2, Bool.false_eq_true, if_false, hfilter, List.map_nil,
      List.sum_nil, if_true]
    rw [hmapM]
    rfl
  refine ⟨_, hfin, by simp, ?_, ?_, ?_⟩
  · intro j hj
    simp [List.get_eq_getElem, List.getElem_map]
  · intro j hj hj2
    simp [List.get_eq_getElem, List.getElem_map]
  · intro a ha b hb
    simp only [List.mem_map] at ha hb
    obtain ⟨x1, hx1, rfl⟩ := ha
    obtain ⟨x2, hx2, rfl⟩ := hb
    obtain ⟨i1, hi1, rfl⟩ := hx1
    obtain ⟨i2, hi2, rfl⟩ := hx2
    simp

/-- Witness for C3: two unpriced stubs (quantities 1 and 2) and reported
total 100. -/
theorem C3_even_split_witness :
    ∃ out, finalizeItems 100
        [⟨none, "A", "Cafe", "Cafe", 0, 0.40, "low", 1, 0, 0, 0⟩,
         ⟨none, "B", "Cafe", "Cafe", 0, 0.40, "low", 2, 0, 0, 0⟩] = some out ∧
      out.length = ([⟨none, "A", "Cafe", "Cafe", 0, 0.40, "low", 1, 0, 0, 0⟩,
         ⟨none, "B", "Cafe", "Cafe", 0, 0.40, "low", 2, 0, 0, 0⟩] : List Item).length ∧
      (∀ j (hj : j < out.length),
        (out.get ⟨j, hj⟩).total_price = (pyRound ((100 : ℚ) /
          ([⟨none, "A", "Cafe", "Cafe", 0, 0.40, "low", 1, 0, 0, 0⟩,
            ⟨none, "B", "Cafe", "Cafe", 0, 0.40, "low", 2, 0, 0, 0⟩] : List Item).length) : ℤ)) ∧
      (∀ j (hj : j < out.length)
          (hj2 : j < ([⟨none, "A", "Cafe", "Cafe", 0, 0.40, "low", 1, 0, 0, 0⟩,
            ⟨none, "B", "Cafe", "Cafe", 0, 0.40, "low", 2, 0, 0, 0⟩] : List Item).length),
        (out.get ⟨j, hj⟩).unit_price
          = (pyRound ((100 : ℚ) /
              ([⟨none, "A", "Cafe", "Cafe", 0, 0.40, "low", 1, 0, 0, 0⟩,
                ⟨none, "B", "Cafe", "Cafe", 0, 0.40, "low", 2, 0, 0, 0⟩] : List Item).length
              / (([⟨none, "A", "Cafe", "Cafe", 0, 0.40, "low", 1, 0, 0, 0⟩,
                ⟨none, "B", "Cafe", "Cafe", 0, 0.40, "low", 2, 0, 0, 0⟩] : List Item).get
                  ⟨j, hj2⟩).qty) : ℤ)) ∧
      ∀ a ∈ out, ∀ b ∈ out, |a.total_price - b.total_price| ≤ 1 :=
  C3_even_split 100
    [⟨none, "A", "Cafe", "Cafe", 0, 0.40, "low", 1, 0, 0, 0⟩,
     ⟨none, "B", "Cafe", "Cafe", 0, 0.40, "low", 2, 0, 0, 0⟩]
    (by decide) (by decide) (by decide)

/-- C6: a recognized order-candidate line whose parenthesized item list is
absent (no group) or empty (parses to no items) gets exactly one
"Unknown Item" stub with quantity 1, unit price and line total equal to the
full reported amount, cost ratio 0.40 and confidence "low". -/
theorem C6_unknown_item_stub (ps : List Product) (date line : String) (o : Order)
    (g1 g2 : List Char) (g3 : Option (List Char))
    (h : processLine ps date line = some (some o))
    (hs : searchOrderPattern (stripStr line).data = some (g1, g2, g3))
    (hempty : g3 = none ∨ ∃ its, g3 = some its ∧ parse_items ps ⟨its⟩ = []) :
    o.items = [⟨none, "Unknown Item", "Cafe", "Cafe", o.total_amount, 0.40, "low",
      1, o.total_amount, (pyRound (o.total_amount * 0.40) : ℤ),
      (pyRound (o.total_amount * 0.40) : ℤ)⟩] := by
  simp only [processLine] at h
  split at h
  · exact absurd h (by simp)
  split at h
  · exact absurd h (by simp)
  split at h
  · exact absurd h (by simp)
  next g1a g2a g3a hsa =>
    rw [hs] at hsa
    injection hsa with hsa
    injection hsa with e1 hsa
    injection hsa with e2 e3
    subst e1
    subst e2
    subst e3
    have hitems : (match g3 with
        | some its => if its.isEmpty = true then ([] : List Item)
            else parse_items ps ⟨its⟩
        | none => ([] : List Item)) = [] := by
      rcases hempty with hnone | ⟨its, hits, hpi⟩
      · rw [hnone]
      · rw [hits]
        by_cases hb : its.isEmpty = true
        · simp [hb]
        · simp [hb, hpi]
    rw [hitems] at h
    split at h
    · exact absurd h (by simp)
    next amount ha =>
      split at h
      · exact absurd h (by simp)
      next items hf =>
        have hfe : finalizeItems amount ([] : List Item)
            = some [unknownItem amount] := rfl
        rw [hfe] at hf
        injection hf with hf
        simp only [Option.some.injEq] at h
        rw [← h, ← hf]
        rfl

/-- Witness for C6: "✅ Mary #2,500 ( , )" — the parenthesized group " , "
splits into only empty phrases, so the item list is empty and the single
Unknown Item stub covers the whole 2500. -/
theorem C6_unknown_item_stub_witness :
    (⟨"2026-02-14", "Mary", "Dine-in", "Bank Transfer", "Confirmed", 2500, "",
      [⟨none, "Unknown Item", "Cafe", "Cafe", 2500, 0.40, "low", 1, 2500, 1000,
        1000⟩]⟩ : Order).items
      = [⟨none, "Unknown Item", "Cafe", "Cafe", 2500, 0.40, "low", 1, 2500,
          (pyRound ((2500 : ℚ) * 0.40) : ℤ), (pyRound ((2500 : ℚ) * 0.40) : ℤ)⟩] :=
  C6_unknown_item_stub [] "2026-02-14" "✅ Mary #2,500 ( , )"
    ⟨"2026-02-14", "Mary", "Dine-in", "Bank Transfer", "Confirmed", 2500, "",
      [⟨none, "Unknown Item", "Cafe", "Cafe", 2500, 0.40, "low", 1, 2500, 1000,
        1000⟩]⟩
    "Mary".data "2,500".data (some " , ".data) (by decide) (by decide)
    (Or.inr ⟨" , ".data, rfl, by decide⟩)

/-- C9: editing one stub's quantity or unit price is idempotent — a second
application of the same edit leaves every derived total unchanged — and the
recomputation touches only the edited stub: every other stub and the
order's reported total are untouched (no re-reconciliation). -/
theorem C9_edit_item_idempotent (o : Order) (ii : ℕ) (f : EditField) :
    edit_item (edit_item o ii f) ii f = edit_item o ii f ∧
    (edit_item o ii f).total_amount = o.total_amount ∧
    ∀ jj, jj ≠ ii → (edit_item o ii f).items.get? jj = o.items.get? jj := by
  refine ⟨?_, rfl, ?_⟩
  · have hg : ∀ i, recompute (applyField (recompute (applyField i f)) f)
        = recompute (applyField i f) := by
      intro i
      cases f with
      | qty v => cases i; simp [applyField, recompute]
      | unitPrice v => cases i; simp [applyField, recompute]
    show Order.mk _ _ _ _ _ _ _ (updateAt ii _ (updateAt ii _ o.items)) = _
    rw [updateAt_idem ii _ hg o.items]
    rfl
  · intro jj hne
    exact updateAt_get?_ne ii jj _ o.items hne

/-- Witness for C9: a two-item order, editing item 0's quantity to 3 twice;
item 1 is untouched. -/
theorem C9_edit_item_idempotent_witness :
    edit_item (edit_item
        ⟨"2026-02-14", "Mary", "Dine-in", "Cash", "Confirmed", 100, "",
          [⟨none, "A", "Cafe", "Cafe", 10, 0.40, "low", 1, 10, 4, 4⟩,
           ⟨none, "B", "Cafe", "Cafe", 20, 0.40, "low", 2, 40, 8, 16⟩]⟩
        0 (.qty 3)) 0 (.qty 3)
      = edit_item
        ⟨"2026-02-14", "Mary", "Dine-in", "Cash", "Confirmed", 100, "",
          [⟨none, "A", "Cafe", "Cafe", 10, 0.40, "low", 1, 10, 4, 4⟩,
           ⟨none, "B", "Cafe", "Cafe", 20, 0.40, "low", 2, 40, 8, 16⟩]⟩
        0 (.qty 3) ∧
    (edit_item
        ⟨"2026-02-14", "Mary", "Dine-in", "Cash", "Confirmed", 100, "",
          [⟨none, "A", "Cafe", "Cafe", 10, 0.40, "low", 1, 10, 4, 4⟩,
           ⟨none, "B", "Cafe", "Cafe", 20, 0.40, "low", 2, 40, 8, 16⟩]⟩
        0 (.qty 3)).total_amount
      = (⟨"2026-02-14", "Mary", "Dine-in", "Cash", "Confirmed", 100, "",
          [⟨none, "A", "Cafe", "Cafe", 10, 0.40, "low", 1, 10, 4, 4⟩,
           ⟨none, "B", "Cafe", "Cafe", 20, 0.40, "low", 2, 40, 8, 16⟩]⟩ : Order).total_amount ∧
    (edit_item
        ⟨"2026-02-14", "Mary", "Dine-in", "Cash", "Confirmed", 100, "",
          [⟨none, "A", "Cafe", "Cafe", 10, 0.40, "low", 1, 10, 4, 4⟩,
           ⟨none, "B", "Cafe", "Cafe", 20, 0.40, "low", 2, 40, 8, 16⟩]⟩
        0 (.qty 3)).items.get? 1
      = (⟨"2026-02-14", "Mary", "Dine-in", "Cash", "Confirmed", 100, "",
          [⟨none, "A", "Cafe", "Cafe", 10, 0.40, "low", 1, 10, 4, 4⟩,
           ⟨none, "B", "Cafe", "Cafe", 20, 0.40, "low", 2, 40, 8, 16⟩]⟩ : Order).items.get? 1 := by
  have h := C9_edit_item_idempotent
    ⟨"2026-02-14", "Mary", "Dine-in", "Cash", "Confirmed", 100, "",
      [⟨none, "A", "Cafe", "Cafe", 10, 0.40, "low", 1, 10, 4, 4⟩,
       ⟨none, "B", "Cafe", "Cafe", 20, 0.40, "low", 2, 40, 8, 16⟩]⟩
    0 (.qty 3)
  exact ⟨h.1, h.2.1, h.2.2 1 (by decide)⟩

end Kokari
